import Mathlib

set_option autoImplicit false

namespace NevergradPyomo

/-!
A shallow embedding of `nevergrad/functions/pyomo/core.py`: the adapter that
translates an instantiated Pyomo optimization model into a nevergrad
parametrization (a dictionary of named parameters), a scalar objective
callable, and boolean constraint predicates.

Modelling conventions:

* Machine floating-point values are modelled as an ideal uniform grid of
  representable values, identified with the integers. `nextafter x y` moves
  one grid step from `x` toward `y`, exactly as `np.nextafter` returns the
  adjacent representable value in the direction of `y`. Only the direction
  and the one-step nature of `np.nextafter` matter for the properties
  proved below, and those are captured faithfully by the unit-spaced grid.
* Values assigned to model variables at evaluation time are rationals;
  multiplication by an objective sense of `1` or `-1` is exact in either
  arithmetic.
* Python `raise NotImplementedError` sites become an `Except` error value,
  one constructor per raise site.
-/

/-- The `NotImplementedError` raise sites of `core.py`, one constructor per
site, in source order. -/
inductive NGError where
  /-- `core.py:44` — a single range that is not a `NumericRange`. -/
  | cannotHandleRangeType
  /-- `core.py:49` — a domain that is neither a supported single range nor a
  `FiniteSimpleRangeSet`. -/
  | cannotHandleDomainType
  /-- `core.py:60` — a variable container that is neither `IndexedVar` nor
  `SimpleVar`. -/
  | unsupportedVariableContainer
  /-- `core.py:64` — a fixed variable entry. -/
  | fixedVariable
  /-- `core.py:77` — a variable whose domain is neither a `RangeSet` nor a
  finite `Set`. -/
  | cannotHandleVariableDomainType
  /-- `core.py:79` — a variable data entry that is not `_GeneralVarData`. -/
  | cannotHandleVariableType
  /-- `core.py:106` — the model is not a `ConcreteModel`. -/
  | abstractModel
  /-- `core.py:129` — no active objective. -/
  | missingObjective
  /-- `core.py:132` — more than one active objective. -/
  | multipleObjectives
  /-- `core.py:166` — a constraint that is neither simple nor indexed; the
  string is the constraint's `ctype` rendering. -/
  | unsupportedConstraintType (ctype : String)
  deriving DecidableEq, Repr

/-- `np.nextafter x y` on the idealized float grid: the adjacent representable
value in the direction of `y` (and `x` itself when `x = y`). -/
def nextafter (x y : Int) : Int :=
  if x < y then x + 1 else if y < x then x - 1 else x

/-- A Pyomo range object as yielded by `domain.ranges()`. `isNumericRange`
models the `isinstance(r, pyomo.base.range.NumericRange)` test; `start`,
`stop` and the two `closed` flags model the fields `r.start`, `r.end` and
`r.closed` (with `none` for Python `None`, i.e. an absent endpoint); `step`
models `r.step`. The field `r.end` is called `stop` here because `end` is a
Lean keyword. -/
structure PRange where
  isNumericRange : Bool
  start : Option Int
  stop : Option Int
  step : Int
  closedLow : Bool
  closedHigh : Bool
  deriving DecidableEq, Repr, Inhabited

/-- A Pyomo `RangeSet` domain: the list produced by `list(domain.ranges())`
plus the `isinstance(domain, pyomo.FiniteSimpleRangeSet)` test. -/
structure RangeSet where
  ranges : List PRange
  isFiniteSimpleRangeSet : Bool
  deriving DecidableEq, Repr

/-- Modelled from the spec: the optimizer's parameter-space primitives, which
the spec lists as external collaborators ("bounded scalar, categorical
choice"). `scalar` records optional lower/upper bounds and the
integer-casting mark (`p.Scalar(lower=..., upper=...)` followed by an
optional `set_integer_casting()`); `choiceRanges` records the sub-ranges
handed to `p.Choice` for a `FiniteSimpleRangeSet`; `choice` records the
elements of a finite set domain handed to `p.Choice`. -/
inductive Param where
  | scalar (lower upper : Option Int) (integer : Bool)
  | choiceRanges (ranges : List PRange)
  | choice (choices : List Int)
  deriving DecidableEq, Repr

/-- A nevergrad parameter dictionary (`ParamDict = tp.Dict[str, p.Parameter]`),
as an insertion-ordered association list, matching a Python `dict`. -/
abbrev ParamDict : Type := List (String × Param)

/-- Python `dict` assignment `d[k] = v`: overwrite in place if the key is
present, append otherwise. -/
def dictSet (d : ParamDict) (k : String) (v : Param) : ParamDict :=
  if d.any (fun kv => kv.1 == k) then
    d.map (fun kv => if kv.1 == k then (k, v) else kv)
  else
    d ++ [(k, v)]

/-- The keys of a parameter dictionary, in insertion order. -/
def keysOf (d : ParamDict) : List String :=
  d.map Prod.fst

/-- `core.py:23`, `_make_pyomo_range_set_to_parametrization`: translate a
`RangeSet` domain into a parameter stored under `params_name`. A single
numeric range with step in `[-1, 0, 1]` becomes a bounded scalar (endpoints
swapped for a negative step, open endpoints nudged by `np.nextafter` toward
`1` below and `-1` above, integer casting set for step `±1`); a
`FiniteSimpleRangeSet` becomes a choice over its materialized ranges; anything
else raises. Storing the scalar and then calling `set_integer_casting()` on
the stored entry is modelled by storing the scalar with its final
integer-casting flag. -/
def _make_pyomo_range_set_to_parametrization
    (domain : RangeSet) (params : ParamDict) (params_name : String) :
    Except NGError ParamDict :=
  let ranges := domain.ranges
  let num_ranges := ranges.length
  if num_ranges = 1 ∧ (ranges.headD default).step ∈ ([-1, 0, 1] : List Int) then
    let r0 := ranges.headD default
    if r0.isNumericRange then
      let lb := r0.start
      let ub := r0.stop
      let p := if r0.step < 0 then (ub, lb) else (lb, ub)
      let lb := p.1
      let ub := p.2
      let lb := match lb with
        | some v => some (if r0.closedLow then v else nextafter v 1)
        | none => none
      let ub := match ub with
        | some v => some (if r0.closedHigh then v else nextafter v (-1))
        | none => none
      .ok (dictSet params params_name
            (Param.scalar lb ub (r0.step == -1 || r0.step == 1)))
    else
      .error NGError.cannotHandleRangeType
  else if domain.isFiniteSimpleRangeSet then
    .ok (dictSet params params_name (Param.choiceRanges domain.ranges))
  else
    .error NGError.cannotHandleDomainType

/-- A Pyomo variable index key as it appears in `model_component._data`:
either a string key or a numeric key (the two cases `_convert_to_ng_name`
distinguishes). -/
inductive PyKey where
  | str (s : String)
  | int (n : Int)
  deriving DecidableEq, Repr

/-- `core.py:16`, `_convert_to_ng_name`: a string key is wrapped in double
quotes, any other key is rendered by `str(...)`. -/
def _convert_to_ng_name (pyomo_var_key : PyKey) : String :=
  match pyomo_var_key with
  | PyKey.str s => "\"" ++ s ++ "\""
  | PyKey.int n => toString n

/-- A variable's declared domain: a `RangeSet`, a Pyomo `Set` (with its
`isfinite()` / `isordered()` flags and its `ordered_data()` / `data()`
element lists), or any other object. -/
inductive VarDomain where
  | rangeSet (rs : RangeSet)
  | pyomoSet (isfinite : Bool) (isordered : Bool)
      (ordered_data : List Int) (data : List Int)
  | otherDomain
  deriving DecidableEq, Repr

/-- A `_GeneralVarData` entry: its `is_fixed()` flag and its `domain`. -/
structure GeneralVarData where
  is_fixed : Bool
  domain : VarDomain
  deriving DecidableEq, Repr

/-- One value of `model_component._data`: either a `_GeneralVarData` or some
other variable-data object (`core.py:62` isinstance test). -/
inductive VarData where
  | general (v : GeneralVarData)
  | otherVarData
  deriving DecidableEq, Repr

/-- The container kind of a variable component (`core.py:59` isinstance
test): a `SimpleVar`, an `IndexedVar`, or any other container. -/
inductive VarKind where
  | simpleVar
  | indexedVar
  | otherComponent
  deriving DecidableEq, Repr

/-- A Pyomo variable component: its container kind, its `name`, and its
`_data` dictionary as an insertion-ordered list of `(key, value)` items,
where the key is `none` for a scalar (non-indexed) variable. -/
structure PyomoVar where
  kind : VarKind
  name : String
  data : List (Option PyKey × VarData)
  deriving DecidableEq, Repr

/-- The parameter name computed at `core.py:65`-`core.py:68`: the component
name alone for a `None` key, otherwise the component name with the rendered
index in brackets. -/
def paramsNameFor (component_name : String) (k : Option PyKey) : String :=
  match k with
  | none => component_name
  | some key => component_name ++ "[" ++ _convert_to_ng_name key ++ "]"

/-- The body of the `for k, v in model_component._data.items()` loop of
`_make_pyomo_variable_to_parametrization` for one item: reject non-general
data and fixed variables, then dispatch on the domain (range set, finite
set — ordered or not — or unsupported). -/
def processVarEntry (component_name : String) (params : ParamDict)
    (kv : Option PyKey × VarData) : Except NGError ParamDict :=
  match kv.2 with
  | VarData.general v =>
    if v.is_fixed then
      .error NGError.fixedVariable
    else
      let params_name := paramsNameFor component_name kv.1
      match v.domain with
      | VarDomain.rangeSet rs =>
        _make_pyomo_range_set_to_parametrization rs params params_name
      | VarDomain.pyomoSet isfinite isordered ordered_data data =>
        if isfinite then
          if isordered then
            .ok (dictSet params params_name (Param.choice ordered_data))
          else
            .ok (dictSet params params_name (Param.choice data))
        else
          .error NGError.cannotHandleVariableDomainType
      | VarDomain.otherDomain =>
        .error NGError.cannotHandleVariableDomainType
  | VarData.otherVarData =>
    .error NGError.cannotHandleVariableType

/-- The `for k, v in model_component._data.items()` loop itself, threading
the parameter dictionary and stopping at the first raise. -/
def processVarEntries (component_name : String) :
    List (Option PyKey × VarData) → ParamDict → Except NGError ParamDict
  | [], params => .ok params
  | kv :: rest, params =>
    match processVarEntry component_name params kv with
    | .error e => .error e
    | .ok params1 => processVarEntries component_name rest params1

/-- `core.py:53`, `_make_pyomo_variable_to_parametrization`: reject variable
containers other than `IndexedVar` / `SimpleVar`, then process every
`_data` item. -/
def _make_pyomo_variable_to_parametrization
    (model_component : PyomoVar) (params : ParamDict) :
    Except NGError ParamDict :=
  if model_component.kind = VarKind.simpleVar ∨
      model_component.kind = VarKind.indexedVar then
    processVarEntries model_component.name model_component.data params
  else
    .error NGError.unsupportedVariableContainer

/-- The state of the (cloned) model instance: the value currently assigned to
each model variable, keyed by the same canonical names the parametrization
uses (`self._model_instance.<name> = <value>` assignments). -/
abbrev ModelState : Type := String → ℚ

/-- A Pyomo objective component: its `name`, its `sense` (`1` for minimize,
`-1` for maximize) and its expression, evaluated against the model state
(`pyomo.value` of the expression). -/
structure Objective where
  name : String
  sense : Int
  expr : ModelState → ℚ

instance : Inhabited Objective :=
  ⟨{ name := "", sense := 1, expr := fun _ => 0 }⟩

/-- A Pyomo constraint component (`core.py:156`-`core.py:166` isinstance
tests): a `SimpleConstraint` with one boolean expression, an
`IndexedConstraint` with the member expressions of `self.all_constraints[i].items()`
in iteration order, or any other constraint object with its `ctype`
rendering. Each member expression is `pyomo.value(c.expr(model))` as a
function of the model state. -/
inductive ConstraintComp where
  | simpleConstraint (expr : ModelState → Bool)
  | indexedConstraint (items : List (ModelState → Bool))
  | otherConstraint (ctype : String)

instance : Inhabited ConstraintComp :=
  ⟨ConstraintComp.simpleConstraint (fun _ => true)⟩

/-- An instantiated Pyomo model as `Pyomo.__init__` reads it: the
`ConcreteModel` isinstance test, the active variable components, the active
constraint components, the active objective components, and the current
variable values of the instance (copied by `model.clone()`). -/
structure PyomoModel where
  isConcreteModel : Bool
  varComponents : List PyomoVar
  constraintComponents : List ConstraintComp
  objectiveComponents : List Objective
  initState : ModelState

/-- The constructed adapter: the nevergrad parameter dictionary and the
collected components, plus the cloned instance's variable state. -/
structure PyomoAdapter where
  instru_params : ParamDict
  all_vars : List PyomoVar
  all_constraints : List ConstraintComp
  all_objectives : List Objective
  modelState : ModelState

/-- The `for v in self._model_instance.component_objects(pyomo.Var, ...)`
loop of `Pyomo.__init__`: feed every variable component through
`_make_pyomo_variable_to_parametrization`, threading `instru_params`. -/
def collectVarParams :
    List PyomoVar → ParamDict → Except NGError ParamDict
  | [], params => .ok params
  | v :: rest, params =>
    match _make_pyomo_variable_to_parametrization v params with
    | .error e => .error e
    | .ok params1 => collectVarParams rest params1

/-- `core.py:102`, `Pyomo.__init__`: reject non-concrete models, derive the
parameter dictionary from the variable components, then require exactly one
active objective (missing-objective checked first, then
multiple-objectives), and assemble the adapter. Constraint components are
collected but not inspected at construction time. -/
def Pyomo.mk (model : PyomoModel) : Except NGError PyomoAdapter :=
  if model.isConcreteModel then
    match collectVarParams model.varComponents [] with
    | .error e => .error e
    | .ok instru_params =>
      if model.objectiveComponents.isEmpty then
        .error NGError.missingObjective
      else if 1 < model.objectiveComponents.length then
        .error NGError.multipleObjectives
      else
        .ok { instru_params := instru_params
            , all_vars := model.varComponents
            , all_constraints := model.constraintComponents
            , all_objectives := model.objectiveComponents
            , modelState := model.initState }
  else
    .error NGError.abstractModel

/-- The `for k, v in k_model_variables.items()` injection loop shared by the
objective and constraint wrappers: each
`exec(f"self._model_instance.<k> = <v>")` assignment updates the model
state at key `k`. -/
def execAssignments (state : ModelState) :
    List (String × ℚ) → ModelState
  | [] => state
  | (k, v) :: rest => execAssignments (Function.update state k v) rest

/-- `core.py:145`, `Pyomo._pyomo_obj_function_wrapper`: inject the candidate
assignment into the model, then return
`pyomo.value(self.all_objectives[i] * self.all_objectives[i].sense)`. The
wrapper is only ever installed with `i = 0` and exactly one objective, so
the index is always in range. -/
def _pyomo_obj_function_wrapper (A : PyomoAdapter) (i : Nat)
    (k_model_variables : List (String × ℚ)) : ℚ :=
  let st := execAssignments A.modelState k_model_variables
  let obj := A.all_objectives.getD i default
  obj.expr st * (obj.sense : ℚ)

/-- The `for k, c in self.all_constraints[i].items()` loop of
`_pyomo_constraint_wrapper`: `ret = ret and pyomo.value(...)`, breaking as
soon as `ret` becomes false, so members after the first violated one are
never evaluated. -/
def evalIndexedConstraint (state : ModelState) :
    List (ModelState → Bool) → Bool
  | [] => true
  | c :: rest =>
    if c state then evalIndexedConstraint state rest else false

/-- `core.py:151`, `Pyomo._pyomo_constraint_wrapper`: inject the candidate
assignment (`instru[1]`, the keyword part of the instrumentation value),
then evaluate the selected constraint: a simple constraint directly, an
indexed constraint as the short-circuited conjunction of its members, and
anything else raises at evaluation time. -/
def _pyomo_constraint_wrapper (A : PyomoAdapter) (i : Nat)
    (instru_kwargs : List (String × ℚ)) : Except NGError Bool :=
  let st := execAssignments A.modelState instru_kwargs
  match A.all_constraints.getD i default with
  | ConstraintComp.simpleConstraint e => .ok (e st)
  | ConstraintComp.indexedConstraint items =>
    .ok (evalIndexedConstraint st items)
  | ConstraintComp.otherConstraint ctype =>
    .error (NGError.unsupportedConstraintType ctype)

/-! ## Theorems -/

/-- Unfolding equation of the constraint wrapper at an indexed constraint. -/
theorem constraint_wrapper_indexed_eq (A : PyomoAdapter) (i : Nat)
    (items : List (ModelState → Bool)) (kv : List (String × ℚ))
    (hc : A.all_constraints.getD i default
        = ConstraintComp.indexedConstraint items) :
    _pyomo_constraint_wrapper A i kv
      = .ok (evalIndexedConstraint (execAssignments A.modelState kv) items) := by
  unfold _pyomo_constraint_wrapper
  rw [hc]

/-- Unfolding equation of the constraint wrapper at an unsupported
constraint. -/
theorem constraint_wrapper_other_eq (A : PyomoAdapter) (i : Nat)
    (ct : String) (kv : List (String × ℚ))
    (hc : A.all_constraints.getD i default
        = ConstraintComp.otherConstraint ct) :
    _pyomo_constraint_wrapper A i kv
      = .error (NGError.unsupportedConstraintType ct) := by
  unfold _pyomo_constraint_wrapper
  rw [hc]

/-- C6: for a variable whose domain is a single numeric range with closed
endpoints and step `0` or `±1`, the derived scalar parameter's bounds are
exactly the range's endpoints — no nudging — oriented by the step's sign
(start/end for steps `0` and `1`, end/start for step `-1`), and the
parameter is marked integer-valued exactly when the step is `±1`. -/
theorem closed_range_bounds_exact (r : PRange) (fs : Bool)
    (params : ParamDict) (name : String) (a b : Int)
    (hnum : r.isNumericRange = true)
    (hstep : r.step = -1 ∨ r.step = 0 ∨ r.step = 1)
    (hcl : r.closedLow = true) (hch : r.closedHigh = true)
    (hs : r.start = some a) (he : r.stop = some b) :
    _make_pyomo_range_set_to_parametrization ⟨[r], fs⟩ params name
      = .ok (dictSet params name
          (Param.scalar (some (if r.step < 0 then b else a))
                        (some (if r.step < 0 then a else b))
                        (r.step == -1 || r.step == 1))) := by
  unfold _make_pyomo_range_set_to_parametrization
  rcases hstep with h | h | h <;>
    simp [h, hnum, hcl, hch, hs, he]

/-- C6 witness: the closed continuous range `[-2, 2]` (step `0`) becomes a
scalar parameter bounded exactly by `[-2, 2]`, not integer-marked. -/
theorem closed_range_bounds_exact_witness :
    _make_pyomo_range_set_to_parametrization
        ⟨[⟨true, some (-2), some 2, 0, true, true⟩], false⟩ [] "x"
      = .ok [("x", Param.scalar (some (-2)) (some 2) false)] := by
  have h := closed_range_bounds_exact ⟨true, some (-2), some 2, 0, true, true⟩
    false [] "x" (-2) 2 rfl (Or.inr (Or.inl rfl)) rfl rfl rfl rfl
  simpa [dictSet] using h

/-- C10: for a single numeric range with step `-1`, the endpoints are swapped
before the scalar parameter is derived — the lower bound comes from the
range's end and the upper bound from the range's start (each nudged only if
the corresponding closed flag is off) — and the parameter is marked
integer-valued just as for step `+1`. -/
theorem negative_step_swaps_endpoints (r : PRange) (fs : Bool)
    (params : ParamDict) (name : String) (a b : Int)
    (hnum : r.isNumericRange = true)
    (hstep : r.step = -1)
    (hs : r.start = some a) (he : r.stop = some b) :
    _make_pyomo_range_set_to_parametrization ⟨[r], fs⟩ params name
      = .ok (dictSet params name
          (Param.scalar
            (some (if r.closedLow then b else nextafter b 1))
            (some (if r.closedHigh then a else nextafter a (-1)))
            true)) := by
  unfold _make_pyomo_range_set_to_parametrization
  simp [hstep, hnum, hs, he]

/-- C10 witness: the integer range counting down from `10` to `1` (step `-1`,
closed) becomes an integer-marked scalar parameter bounded by `[1, 10]`. -/
theorem negative_step_swaps_endpoints_witness :
    _make_pyomo_range_set_to_parametrization
        ⟨[⟨true, some 10, some 1, -1, true, true⟩], false⟩ [] "x"
      = .ok [("x", Param.scalar (some 1) (some 10) true)] := by
  have h := negative_step_swaps_endpoints ⟨true, some 10, some 1, -1, true, true⟩
    false [] "x" 10 1 rfl rfl rfl rfl
  simpa [dictSet] using h

/-- C1: evaluation of the range translator at the failing input — the range
`(5, 10]` with an open lower endpoint `5`. `np.nextafter(lb, 1)` moves `lb`
one representable step toward `1`, so for `lb = 5` it produces the largest
representable value strictly BELOW `5` (grid value `4`), outside the open
interval, whereas the claim requires the smallest representable value
strictly above `5` (grid value `6`). -/
theorem open_lower_bound_nudged_toward_one :
    _make_pyomo_range_set_to_parametrization
        ⟨[⟨true, some 5, some 10, 0, false, true⟩], false⟩ [] "x"
      = .ok [("x", Param.scalar (some (nextafter 5 1)) (some 10) false)]
    ∧ nextafter 5 1 < 5 ∧ nextafter 5 1 ≠ 6 := by
  refine ⟨rfl, by decide, by decide⟩

/-- Fixture: a minimization objective reading the variable `x`. -/
def minObjective : Objective :=
  { name := "obj", sense := 1, expr := fun st => st "x" }

/-- Fixture: a maximization objective (`sense = -1`) whose expression is the
value of the variable `x`. -/
def maxObjective : Objective :=
  { name := "value", sense := -1, expr := fun st => st "x" }

/-- Fixture: a scalar variable whose domain is the fully unbounded numeric
range of Pyomo's `Reals` (`NumericRange(None, None, 0)`). -/
def unboundedVar : PyomoVar :=
  { kind := VarKind.simpleVar, name := "x"
  , data := [(none, VarData.general
      ⟨false, VarDomain.rangeSet ⟨[⟨true, none, none, 0, false, false⟩], false⟩⟩)] }

/-- Fixture: a concrete model with one objective whose only variable is the
unbounded `unboundedVar`. -/
def unboundedModel : PyomoModel :=
  { isConcreteModel := true, varComponents := [unboundedVar]
  , constraintComponents := [], objectiveComponents := [minObjective]
  , initState := fun _ => 0 }

/-- C2 counterexample: a fully unbounded single numeric range with step `0`
(the shape of Pyomo's `Reals`) does NOT make adapter construction fail — the
range translator succeeds and produces a scalar parameter with no bounds,
raising no Unsupported-Domain error, and `Pyomo.mk` on a model holding such
a variable succeeds. -/
theorem unbounded_range_constructs_param :
    _make_pyomo_range_set_to_parametrization
        ⟨[⟨true, none, none, 0, false, false⟩], false⟩ [] "x"
      = .ok [("x", Param.scalar none none false)]
    ∧ (Pyomo.mk unboundedModel).isOk = true := ⟨rfl, rfl⟩

/-- C2 amended: for a single unit-or-zero-step numeric range with an absent
start or end endpoint, the translator succeeds — no Unsupported-Domain error
is raised — and stores a scalar parameter that has no bound on each side
whose (step-oriented, i.e. swapped for a negative step) endpoint is absent
(`Option.map` sends the absent endpoint to an absent bound), keeps the usual
closed-or-nudged bound on a present side, and is integer-marked exactly for
step `±1`. -/
theorem unbounded_range_scalar_ok (r : PRange) (fs : Bool)
    (params : ParamDict) (name : String)
    (hnum : r.isNumericRange = true)
    (hstep : r.step = -1 ∨ r.step = 0 ∨ r.step = 1)
    (_hunb : r.start = none ∨ r.stop = none) :
    _make_pyomo_range_set_to_parametrization ⟨[r], fs⟩ params name
      = .ok (dictSet params name
          (Param.scalar
            (Option.map (fun v => if r.closedLow then v else nextafter v 1)
              (if r.step < 0 then r.stop else r.start))
            (Option.map (fun v => if r.closedHigh then v else nextafter v (-1))
              (if r.step < 0 then r.start else r.stop))
            (r.step == -1 || r.step == 1))) := by
  unfold _make_pyomo_range_set_to_parametrization
  rcases hstep with h | h | h <;>
    cases hls : r.start <;> cases hlu : r.stop <;>
      simp [h, hnum, hls, hlu]

/-- Fixture: a concrete model with no variables and no objective. -/
def noObjectiveModel : PyomoModel :=
  { isConcreteModel := true, varComponents := [], constraintComponents := []
  , objectiveComponents := [], initState := fun _ => 0 }

/-- Fixture: a concrete model with two active objectives. -/
def twoObjectiveModel : PyomoModel :=
  { isConcreteModel := true, varComponents := [], constraintComponents := []
  , objectiveComponents := [minObjective, maxObjective], initState := fun _ => 0 }

/-- Fixture: a concrete model with exactly one active objective. -/
def oneObjectiveModel : PyomoModel :=
  { isConcreteModel := true, varComponents := [], constraintComponents := []
  , objectiveComponents := [minObjective], initState := fun _ => 0 }

/-- C4: for a concrete model whose variables all translate successfully,
construction fails with the Missing-Objective error when there is no active
objective, fails with the Multiple-Objectives error when there are two or
more, and succeeds exactly when there is one. -/
theorem objective_count_enforced (model : PyomoModel) (ps : ParamDict)
    (hconc : model.isConcreteModel = true)
    (hvars : collectVarParams model.varComponents [] = .ok ps) :
    (model.objectiveComponents = [] →
      Pyomo.mk model = .error NGError.missingObjective)
    ∧ (1 < model.objectiveComponents.length →
      Pyomo.mk model = .error NGError.multipleObjectives)
    ∧ (model.objectiveComponents.length = 1 →
      (Pyomo.mk model).isOk = true) := by
  unfold Pyomo.mk
  refine ⟨fun h => ?_, fun h => ?_, fun h => ?_⟩
  · simp [hconc, hvars, h]
  · have hne : ¬ model.objectiveComponents.isEmpty := by
      cases hl : model.objectiveComponents with
      | nil => rw [hl] at h; simp at h
      | cons a t => simp [hl]
    simp [hconc, hvars, hne, h]
  · obtain ⟨o, ho⟩ := List.length_eq_one.mp h
    simp [hconc, hvars, ho, Except.isOk, Except.toBool]

/-- C4 witness: a model with no objective is rejected with Missing-Objective,
one with two objectives with Multiple-Objectives, and one with exactly one
objective is accepted. -/
theorem objective_count_enforced_witness :
    Pyomo.mk noObjectiveModel = .error NGError.missingObjective
    ∧ Pyomo.mk twoObjectiveModel = .error NGError.multipleObjectives
    ∧ (Pyomo.mk oneObjectiveModel).isOk = true := by
  refine ⟨?_, ?_, ?_⟩
  · exact (objective_count_enforced noObjectiveModel [] rfl rfl).1 rfl
  · exact (objective_count_enforced twoObjectiveModel [] rfl rfl).2.1
      (by norm_num [twoObjectiveModel])
  · exact (objective_count_enforced oneObjectiveModel [] rfl rfl).2.2 rfl

/-- C3: for a concrete model with a single active objective, the objective
evaluator injects the assignment into the model state and returns the
objective expression's value multiplied by the declared sense; in
particular, for a maximization objective (`sense = -1`) whose expression
evaluates to `V`, it returns `-V`. -/
theorem objective_sense_normalized (model : PyomoModel) (ps : ParamDict)
    (o : Objective) (A : PyomoAdapter) (kv : List (String × ℚ))
    (hconc : model.isConcreteModel = true)
    (hvars : collectVarParams model.varComponents [] = .ok ps)
    (hobj : model.objectiveComponents = [o])
    (hA : Pyomo.mk model = .ok A) :
    _pyomo_obj_function_wrapper A 0 kv
      = o.expr (execAssignments model.initState kv) * (o.sense : ℚ)
    ∧ (o.sense = -1 →
        _pyomo_obj_function_wrapper A 0 kv
          = - o.expr (execAssignments model.initState kv)) := by
  have hA' : A = { instru_params := ps
                 , all_vars := model.varComponents
                 , all_constraints := model.constraintComponents
                 , all_objectives := [o]
                 , modelState := model.initState } := by
    unfold Pyomo.mk at hA
    simp [hconc, hvars, hobj] at hA
    exact hA.symm
  subst hA'
  constructor
  · simp [_pyomo_obj_function_wrapper]
  · intro hsense
    simp [_pyomo_obj_function_wrapper, hsense]

/-- Fixture: a concrete model whose only component is the maximization
objective `maxObjective`. -/
def maxModel : PyomoModel :=
  { isConcreteModel := true, varComponents := [], constraintComponents := []
  , objectiveComponents := [maxObjective], initState := fun _ => 0 }

/-- Fixture: the adapter `Pyomo.mk` builds for `maxModel`. -/
def maxAdapter : PyomoAdapter :=
  { instru_params := [], all_vars := [], all_constraints := []
  , all_objectives := [maxObjective], modelState := fun _ => 0 }

/-- C3 witness: under the assignment `x = 3` the maximization objective with
value `3` evaluates to `-3`. -/
theorem objective_sense_normalized_witness :
    _pyomo_obj_function_wrapper maxAdapter 0 [("x", 3)] = -3 := by
  have h := (objective_sense_normalized maxModel [] maxObjective maxAdapter
    [("x", 3)] rfl rfl rfl rfl).2 rfl
  rw [h]
  norm_num [execAssignments, maxModel, maxObjective, Function.update]

/-- Fixture: a concrete model with one objective and one constraint
component of an unsupported kind (e.g. a `ConstraintList`). -/
def oddConstraintModel : PyomoModel :=
  { isConcreteModel := true, varComponents := []
  , constraintComponents := [ConstraintComp.otherConstraint "ConstraintList"]
  , objectiveComponents := [minObjective], initState := fun _ => 0 }

/-- Fixture: the adapter `Pyomo.mk` builds for `oddConstraintModel`. -/
def oddConstraintAdapter : PyomoAdapter :=
  { instru_params := [], all_vars := []
  , all_constraints := [ConstraintComp.otherConstraint "ConstraintList"]
  , all_objectives := [minObjective], modelState := fun _ => 0 }

/-- C8: a constraint component whose kind is neither simple nor indexed does
not make construction fail — `Pyomo.mk` succeeds — and the
Unsupported-Constraint error is raised only when the constraint evaluator is
invoked on that constraint, returned synchronously to the caller. -/
theorem unsupported_constraint_lazy_error (model : PyomoModel)
    (ps : ParamDict) (i : Nat) (ct : String) (kv : List (String × ℚ))
    (hconc : model.isConcreteModel = true)
    (hvars : collectVarParams model.varComponents [] = .ok ps)
    (hlen : model.objectiveComponents.length = 1)
    (hc : model.constraintComponents.getD i default
        = ConstraintComp.otherConstraint ct) :
    (Pyomo.mk model).isOk = true
    ∧ ∀ A, Pyomo.mk model = .ok A →
        _pyomo_constraint_wrapper A i kv
          = .error (NGError.unsupportedConstraintType ct) := by
  obtain ⟨o, ho⟩ := List.length_eq_one.mp hlen
  constructor
  · unfold Pyomo.mk
    simp [hconc, hvars, ho, Except.isOk, Except.toBool]
  · intro A hA
    have hA' : A = { instru_params := ps
                   , all_vars := model.varComponents
                   , all_constraints := model.constraintComponents
                   , all_objectives := [o]
                   , modelState := model.initState } := by
      unfold Pyomo.mk at hA
      simp [hconc, hvars, ho] at hA
      exact hA.symm
    subst hA'
    exact constraint_wrapper_other_eq _ i ct kv hc

/-- C8 witness: construction over `oddConstraintModel` succeeds, and invoking
the constraint evaluator on its unsupported constraint returns the
Unsupported-Constraint error. -/
theorem unsupported_constraint_lazy_error_witness :
    (Pyomo.mk oddConstraintModel).isOk = true
    ∧ _pyomo_constraint_wrapper oddConstraintAdapter 0 []
        = .error (NGError.unsupportedConstraintType "ConstraintList") := by
  have h := unsupported_constraint_lazy_error oddConstraintModel [] 0
    "ConstraintList" [] rfl rfl rfl rfl
  exact ⟨h.1, h.2 oddConstraintAdapter rfl⟩

/-- Auxiliary for C5: the short-circuited member loop returns `true` exactly
when every member constraint is satisfied by the state. -/
theorem evalIndexedConstraint_eq_true_iff (st : ModelState)
    (l : List (ModelState → Bool)) :
    evalIndexedConstraint st l = true ↔ ∀ c ∈ l, c st = true := by
  induction l with
  | nil => simp [evalIndexedConstraint]
  | cons c rest ih =>
    by_cases h : c st = true <;> simp [evalIndexedConstraint, h, ih]

/-- Auxiliary for C5: as soon as one member evaluates to `false`, the loop
returns `false`, whatever the members after it are. -/
theorem evalIndexedConstraint_append_false (st : ModelState)
    (pre : List (ModelState → Bool)) (c : ModelState → Bool)
    (post : List (ModelState → Bool)) (hc : c st = false) :
    evalIndexedConstraint st (pre ++ c :: post) = false := by
  induction pre with
  | nil => simp [evalIndexedConstraint, hc]
  | cons d rest ih =>
    by_cases hd : d st = true <;> simp [evalIndexedConstraint, hd, ih]

/-- C5: for an indexed constraint family, the constraint evaluator returns
`true` if and only if every member instance is satisfied under the injected
assignment; it returns `false` as soon as one member is violated — whatever
the members listed after it are, since the loop stops at the first
violation. -/
theorem indexed_constraint_conjunction (A : PyomoAdapter) (i : Nat)
    (items : List (ModelState → Bool)) (kv : List (String × ℚ))
    (hc : A.all_constraints.getD i default
        = ConstraintComp.indexedConstraint items) :
    (_pyomo_constraint_wrapper A i kv = .ok true
        ↔ ∀ c ∈ items, c (execAssignments A.modelState kv) = true)
    ∧ (∀ pre c post, items = pre ++ c :: post →
        c (execAssignments A.modelState kv) = false →
        _pyomo_constraint_wrapper A i kv = .ok false)
    ∧ (∀ st pre c post, c st = false →
        evalIndexedConstraint st (pre ++ c :: post) = false) := by
  refine ⟨?_, ?_, fun st pre c post h =>
    evalIndexedConstraint_append_false st pre c post h⟩
  · rw [constraint_wrapper_indexed_eq A i items kv hc]
    simp only [Except.ok.injEq]
    exact evalIndexedConstraint_eq_true_iff _ items
  · intro pre c post hitems hviol
    rw [constraint_wrapper_indexed_eq A i items kv hc, hitems,
      evalIndexedConstraint_append_false _ pre c post hviol]

/-- Fixture: the member predicate `x ≤ 1`. -/
def upperMember : ModelState → Bool := fun st => decide (st "x" ≤ 1)

/-- Fixture: the member predicate `0 ≤ x`. -/
def lowerMember : ModelState → Bool := fun st => decide (0 ≤ st "x")

/-- Fixture: an adapter holding one indexed constraint family with the two
members `x ≤ 1` and `0 ≤ x`. -/
def indexedAdapter : PyomoAdapter :=
  { instru_params := [], all_vars := []
  , all_constraints := [ConstraintComp.indexedConstraint [upperMember, lowerMember]]
  , all_objectives := [minObjective], modelState := fun _ => 0 }

/-- C5 witness: under `x = 5` the first member `x ≤ 1` is violated while the
second member `0 ≤ x` holds, and the family evaluates to infeasible. -/
theorem indexed_constraint_conjunction_witness :
    _pyomo_constraint_wrapper indexedAdapter 0 [("x", 5)] = .ok false := by
  have h := (indexed_constraint_conjunction indexedAdapter 0
    [upperMember, lowerMember] [("x", 5)] rfl).2.1 [] upperMember
    [lowerMember] rfl ?_
  · exact h
  · norm_num [upperMember, indexedAdapter, execAssignments, Function.update]

/-- C2 amended witness: the one-side-unbounded integer range of Pyomo's
`NonNegativeIntegers` (start `0`, absent end, step `1`, closed) yields an
integer-marked scalar parameter bounded below by `0` and unbounded above. -/
theorem unbounded_range_scalar_ok_witness :
    _make_pyomo_range_set_to_parametrization
        ⟨[⟨true, some 0, none, 1, true, true⟩], false⟩ [] "n"
      = .ok [("n", Param.scalar (some 0) none true)] := by
  have h := unbounded_range_scalar_ok ⟨true, some 0, none, 1, true, true⟩
    false [] "n" rfl (Or.inr (Or.inr rfl)) (Or.inr rfl)
  simpa [dictSet] using h

/-- Auxiliary for C7: assigning a key not yet present appends it, so the key
list grows by exactly that key. -/
theorem dictSet_keys_of_not_mem (d : ParamDict) (k : String) (v : Param)
    (h : k ∉ keysOf d) :
    keysOf (dictSet d k v) = keysOf d ++ [k] := by
  have hany : d.any (fun kv => kv.1 == k) = false := by
    rw [List.any_eq_false]
    intro kv hkv hbeq
    apply h
    unfold keysOf
    exact (eq_of_beq hbeq) ▸ List.mem_map_of_mem Prod.fst hkv
  unfold dictSet
  rw [hany]
  simp [keysOf]

/-- Auxiliary for C7: a successful range-set translation stores exactly one
parameter, under the requested name. -/
theorem rangeSet_param_shape (rs : RangeSet) (params : ParamDict)
    (name : String) (d : ParamDict)
    (h : _make_pyomo_range_set_to_parametrization rs params name = .ok d) :
    ∃ v, d = dictSet params name v := by
  unfold _make_pyomo_range_set_to_parametrization at h
  dsimp only at h
  split at h
  · split at h
    · exact ⟨_, (Except.ok.inj h).symm⟩
    · cases h
  · split at h
    · exact ⟨_, (Except.ok.inj h).symm⟩
    · cases h

/-- Auxiliary for C7: a successfully processed variable entry stores exactly
one parameter, under the entry's derived name. -/
theorem processVarEntry_shape (cn : String) (params : ParamDict)
    (kv : Option PyKey × VarData) (d : ParamDict)
    (h : processVarEntry cn params kv = .ok d) :
    ∃ v, d = dictSet params (paramsNameFor cn kv.1) v := by
  unfold processVarEntry at h
  split at h
  · rename_i gv _
    split at h
    · cases h
    · split at h
      · exact rangeSet_param_shape _ _ _ _ h
      · split at h
        · split at h
          · exact ⟨_, (Except.ok.inj h).symm⟩
          · exact ⟨_, (Except.ok.inj h).symm⟩
        · cases h
      · cases h
  · cases h

/-- Auxiliary for C7: a successful entry loop appends exactly one parameter
per entry, in order, under the entries' derived names (provided those names
are fresh and pairwise distinct). -/
theorem processVarEntries_keys (cn : String)
    (items : List (Option PyKey × VarData)) (params d : ParamDict)
    (h : processVarEntries cn items params = .ok d)
    (hnd : (keysOf params
        ++ items.map (fun kv => paramsNameFor cn kv.1)).Nodup) :
    keysOf d = keysOf params
        ++ items.map (fun kv => paramsNameFor cn kv.1) := by
  induction items generalizing params with
  | nil =>
    unfold processVarEntries at h
    cases h
    simp
  | cons kv rest ih =>
    unfold processVarEntries at h
    cases hp : processVarEntry cn params kv with
    | error e => rw [hp] at h; cases h
    | ok params1 =>
      rw [hp] at h
      obtain ⟨v, rfl⟩ := processVarEntry_shape cn params kv params1 hp
      have hfresh : paramsNameFor cn kv.1 ∉ keysOf params := by
        intro hmem
        exact (List.nodup_append.mp hnd).2.2 hmem (by simp)
      have hkeys1 := dictSet_keys_of_not_mem params (paramsNameFor cn kv.1) v hfresh
      have hnd' : (keysOf (dictSet params (paramsNameFor cn kv.1) v)
          ++ rest.map (fun kv => paramsNameFor cn kv.1)).Nodup := by
        rw [hkeys1, List.append_assoc]
        simpa using hnd
      rw [ih _ h hnd', hkeys1, List.append_assoc]
      simp

/-- C7: when a variable translates successfully starting from an empty
parameter dictionary (and the derived names are pairwise distinct, which
holds for distinct index keys since string keys are quoted), the dictionary
holds exactly one parameter per `_data` entry, in order, named by the
variable name with the rendered index in brackets — the index wrapped in
double quotes when it is a string key, rendered by `str(...)` otherwise —
and by the bare variable name for the scalar (`None`-keyed) entry. -/
theorem indexed_var_param_names (mc : PyomoVar) (d : ParamDict)
    (h : _make_pyomo_variable_to_parametrization mc [] = .ok d)
    (hnd : (mc.data.map (fun kv => paramsNameFor mc.name kv.1)).Nodup) :
    keysOf d = mc.data.map (fun kv => paramsNameFor mc.name kv.1)
    ∧ (∀ s, paramsNameFor mc.name (some (PyKey.str s))
        = mc.name ++ "[" ++ ("\"" ++ s ++ "\"") ++ "]")
    ∧ (∀ n : Int, paramsNameFor mc.name (some (PyKey.int n))
        = mc.name ++ "[" ++ toString n ++ "]")
    ∧ paramsNameFor mc.name none = mc.name := by
  refine ⟨?_, fun s => rfl, fun n => rfl, rfl⟩
  unfold _make_pyomo_variable_to_parametrization at h
  split at h
  · have := processVarEntries_keys mc.name mc.data [] d h (by simpa [keysOf] using hnd)
    simpa [keysOf] using this
  · cases h

/-- Fixture: an indexed variable `x` with a string index entry and a numeric
index entry, both over the finite ordered set `0..1`. -/
def twoKeyVar : PyomoVar :=
  { kind := VarKind.indexedVar, name := "x"
  , data :=
      [ (some (PyKey.str "a"),
          VarData.general ⟨false, VarDomain.pyomoSet true true [0, 1] [0, 1]⟩)
      , (some (PyKey.int 2),
          VarData.general ⟨false, VarDomain.pyomoSet true true [0, 1] [0, 1]⟩) ] }

/-- C7 witness: translating `twoKeyVar` yields exactly the two parameters
named `x["a"]` (string key, quoted) and `x[2]` (numeric key, unquoted). -/
theorem indexed_var_param_names_witness :
    keysOf [("x[\"a\"]", Param.choice [0, 1]), ("x[2]", Param.choice [0, 1])]
      = ["x[\"a\"]", "x[2]"] := by
  have h := (indexed_var_param_names twoKeyVar
    [("x[\"a\"]", Param.choice [0, 1]), ("x[2]", Param.choice [0, 1])]
    rfl (by decide)).1
  exact h.trans (by decide)

/-- Auxiliary for C9: the entry loop fails whenever some entry is a fixed
general variable (either that entry raises, or an earlier one already
has). -/
theorem processVarEntries_fixed_fails (cn : String)
    (items : List (Option PyKey × VarData)) (params : ParamDict)
    (hfix : ∃ kv ∈ items, ∃ gv,
        kv.2 = VarData.general gv ∧ gv.is_fixed = true) :
    (processVarEntries cn items params).isOk = false := by
  induction items generalizing params with
  | nil => simp at hfix
  | cons kv rest ih =>
    obtain ⟨kv', hmem, gv, hgen, hfixed⟩ := hfix
    unfold processVarEntries
    rcases List.mem_cons.mp hmem with heq | hmem'
    · subst heq
      have hp : processVarEntry cn params kv' = .error NGError.fixedVariable := by
        unfold processVarEntry
        rw [hgen]
        simp [hfixed]
      rw [hp]
      rfl
    · cases hp : processVarEntry cn params kv with
      | error e => rfl
      | ok params1 => exact ih params1 ⟨kv', hmem', gv, hgen, hfixed⟩

/-- Auxiliary for C9: if some variable component fails to translate whatever
the accumulated dictionary is, the construction-time variable loop fails. -/
theorem collectVarParams_fails (vars : List PyomoVar) (params : ParamDict)
    (hv : ∃ v ∈ vars, ∀ q : ParamDict,
        (_make_pyomo_variable_to_parametrization v q).isOk = false) :
    (collectVarParams vars params).isOk = false := by
  induction vars generalizing params with
  | nil => simp at hv
  | cons v rest ih =>
    obtain ⟨v', hmem, hfail⟩ := hv
    unfold collectVarParams
    rcases List.mem_cons.mp hmem with heq | hmem'
    · subst heq
      cases hp : _make_pyomo_variable_to_parametrization v' params with
      | error e => rfl
      | ok params1 =>
        have hfalse := hfail params
        rw [hp] at hfalse
        simp [Except.isOk, Except.toBool] at hfalse
    · cases hp : _make_pyomo_variable_to_parametrization v params with
      | error e => rfl
      | ok params1 => exact ih params1 ⟨v', hmem', hfail⟩

/-- C9: a variable container that is neither a `SimpleVar` nor an
`IndexedVar` makes translation fail with the container-kind
Unsupported-Domain error; a variable holding a fixed entry makes translation
fail as well; and a concrete model containing a variable of either shape
makes `Pyomo.mk` fail — no adapter is produced. -/
theorem unsupported_or_fixed_var_rejected (mc : PyomoVar)
    (params : ParamDict) :
    (mc.kind = VarKind.otherComponent →
      _make_pyomo_variable_to_parametrization mc params
        = .error NGError.unsupportedVariableContainer)
    ∧ ((∃ kv ∈ mc.data, ∃ gv,
          kv.2 = VarData.general gv ∧ gv.is_fixed = true) →
        (_make_pyomo_variable_to_parametrization mc params).isOk = false)
    ∧ ((mc.kind = VarKind.otherComponent ∨ ∃ kv ∈ mc.data, ∃ gv,
          kv.2 = VarData.general gv ∧ gv.is_fixed = true) →
        ∀ model : PyomoModel, model.isConcreteModel = true →
          mc ∈ model.varComponents → (Pyomo.mk model).isOk = false) := by
  have hkind : mc.kind = VarKind.otherComponent →
      ∀ q : ParamDict, _make_pyomo_variable_to_parametrization mc q
        = .error NGError.unsupportedVariableContainer := by
    intro hk q
    unfold _make_pyomo_variable_to_parametrization
    rw [if_neg]
    simp [hk]
  have hfixfail : (∃ kv ∈ mc.data, ∃ gv,
      kv.2 = VarData.general gv ∧ gv.is_fixed = true) →
      ∀ q : ParamDict,
        (_make_pyomo_variable_to_parametrization mc q).isOk = false := by
    intro hfix q
    unfold _make_pyomo_variable_to_parametrization
    split
    · exact processVarEntries_fixed_fails mc.name mc.data q hfix
    · simp [Except.isOk, Except.toBool]
  refine ⟨fun hk => hkind hk params, fun hfix => hfixfail hfix params, ?_⟩
  intro hbad model hconc hmem
  have hfail : ∀ q : ParamDict,
      (_make_pyomo_variable_to_parametrization mc q).isOk = false := by
    rcases hbad with hk | hfix
    · intro q
      rw [hkind hk q]
      simp [Except.isOk, Except.toBool]
    · exact hfixfail hfix
  have hcv := collectVarParams_fails model.varComponents [] ⟨mc, hmem, hfail⟩
  unfold Pyomo.mk
  rw [hconc]
  simp only [if_true]
  cases hc : collectVarParams model.varComponents [] with
  | error e => rfl
  | ok p =>
    rw [hc] at hcv
    simp [Except.isOk, Except.toBool] at hcv

/-- Fixture: a variable component of an unsupported container kind. -/
def oddContainerVar : PyomoVar :=
  { kind := VarKind.otherComponent, name := "w", data := [] }

/-- Fixture: a simple variable whose single entry is fixed. -/
def fixedVar : PyomoVar :=
  { kind := VarKind.simpleVar, name := "y"
  , data := [(none, VarData.general ⟨true, VarDomain.otherDomain⟩)] }

/-- Fixture: a concrete model containing the fixed variable `fixedVar`. -/
def fixedVarModel : PyomoModel :=
  { isConcreteModel := true, varComponents := [fixedVar]
  , constraintComponents := [], objectiveComponents := [minObjective]
  , initState := fun _ => 0 }

/-- C9 witness: the unsupported container is rejected with the
container-kind error, the fixed variable makes translation fail, and
building an adapter over a model holding the fixed variable fails. -/
theorem unsupported_or_fixed_var_rejected_witness :
    _make_pyomo_variable_to_parametrization oddContainerVar []
      = .error NGError.unsupportedVariableContainer
    ∧ (_make_pyomo_variable_to_parametrization fixedVar []).isOk = false
    ∧ (Pyomo.mk fixedVarModel).isOk = false := by
  have hfix : ∃ kv ∈ fixedVar.data, ∃ gv,
      kv.2 = VarData.general gv ∧ gv.is_fixed = true :=
    ⟨(none, VarData.general ⟨true, VarDomain.otherDomain⟩), by simp [fixedVar],
      ⟨true, VarDomain.otherDomain⟩, rfl, rfl⟩
  refine ⟨(unsupported_or_fixed_var_rejected oddContainerVar []).1 rfl, ?_, ?_⟩
  · exact (unsupported_or_fixed_var_rejected fixedVar []).2.1 hfix
  · exact (unsupported_or_fixed_var_rejected fixedVar []).2.2 (Or.inr hfix)
      fixedVarModel rfl (by simp [fixedVarModel])

end NevergradPyomo
